import Mathlib

/-!
Verification of the penguin-rs stream multiplexor core against its
specification.  The definitions below are a shallow embedding of
`src/mux/inner.rs` (the demultiplex task of `MultiplexorInner`) and of the
WebSocket upgrade filter in `src/server/websocket.rs`.

Modelling conventions:
* machine integers (`u16`, bytes) are `Nat`; payloads are `List Nat`;
* a bounded `mpsc` channel appears as the list of payloads enqueued so far
  plus a flag recording whether its consumer is still alive (a `send` on a
  channel whose receiver was dropped fails; `.ok()` swallows the failure);
* the shared `Arc<AtomicBool>` removed-flag is the `removed` field of the
  port-table entry; entries removed from the table are kept in a ghost
  `dead` list so the stream-side observable state stays visible;
* a Rust panic (out-of-bounds `bytes::Buf` access) is the explicit
  `StepResult.panicked` constructor;
* the transport sink is assumed writable; messages pushed into it are
  accumulated in an output list.
-/

/-- Role of a multiplexor endpoint (`Role` in `src/mux`). -/
inductive Role where
  | client
  | server
  deriving DecidableEq, Repr

/-- Stream-frame flag (`StreamFlag` in `src/mux/frame.rs`), wire codes
0x00..0x04 per the spec. -/
inductive StreamFlag where
  | syn
  | ack
  | rst
  | fin
  | psh
  deriving DecidableEq, Repr

/-- A stream frame: source port, destination port, flag, payload
(`StreamFrame` in `src/mux/frame.rs`, layout given by the spec wire
format). -/
structure StreamFrame where
  sport : Nat
  dport : Nat
  flag : StreamFlag
  data : List Nat
  deriving DecidableEq, Repr

/-- A datagram frame (`DatagramFrame`): target host, port, source id and
payload, per the spec wire format. -/
structure DatagramFrame where
  host : List Nat
  port : Nat
  sid : Nat
  payload : List Nat
  deriving DecidableEq, Repr

/-- A decoded frame: either a stream frame or a datagram frame. -/
inductive Frame where
  | stream (f : StreamFrame)
  | datagram (d : DatagramFrame)
  deriving DecidableEq, Repr

/-- Modelled from the spec (frame constructors live in `src/mux/frame.rs`,
not under `src/`): `StreamFrame::new_ack(our_port, their_port)` is an `Ack`
with empty payload, source `our_port`, destination `their_port`. -/
def new_ack (ourPort theirPort : Nat) : StreamFrame :=
  ⟨ourPort, theirPort, .ack, []⟩

/-- Modelled from the spec (frame constructors live in `src/mux/frame.rs`,
not under `src/`): `StreamFrame::new_rst(our_port, their_port)` is a `Rst`
with empty payload, source `our_port`, destination `theirPort`. -/
def new_rst (ourPort theirPort : Nat) : StreamFrame :=
  ⟨ourPort, theirPort, .rst, []⟩

/-- One entry of the port table: the `mpsc::Sender<Bytes>` half feeding the
stream reader (modelled by the queue of payloads enqueued so far plus the
liveness of its consumer) and the shared removed-flag. -/
structure PortEntry where
  queue : List (List Nat)
  receiverAlive : Bool
  removed : Bool
  deriving DecidableEq, Repr

/-- The port table `streams: HashMap<u16, (Sender, AtomicBool)>` as an
association list with unique keys maintained by `insertPort`. -/
abbrev PortMap := List (Nat × PortEntry)

/-- First-match association-list lookup (HashMap `get`). -/
def lookupPort : PortMap → Nat → Option PortEntry
  | [], _ => none
  | (k, e) :: rest, key => if k = key then some e else lookupPort rest key

/-- Remove every binding of a key (HashMap `remove`). -/
def removePort (m : PortMap) (key : Nat) : PortMap :=
  m.filter (fun p => p.1 != key)

/-- Replacing insert (HashMap `insert`). -/
def insertPort (m : PortMap) (key : Nat) (v : PortEntry) : PortMap :=
  (key, v) :: removePort m key

/-- Update the (first) binding of a key in place, as mutating through the
stored sender does. -/
def updatePort : PortMap → Nat → (PortEntry → PortEntry) → PortMap
  | [], _, _ => []
  | (k, e) :: rest, key, fn =>
      if k = key then (k, fn e) :: rest else (k, e) :: updatePort rest key fn

/-- `sender.send(payload)`: succeeds and enqueues iff the consumer is still
alive; returns the updated entry and the success flag. -/
def sendToEntry (e : PortEntry) (payload : List Nat) : PortEntry × Bool :=
  if e.receiverAlive then ({ e with queue := e.queue ++ [payload] }, true)
  else (e, false)

/-- The state an entry is left in when the core discards it: EOF (empty
payload) enqueued when deliverable, removed-flag stored `true`. -/
def finalizeEntry (e : PortEntry) : PortEntry :=
  { (sendToEntry e []).1 with removed := true }

/-- Errors of the multiplexor core (`Error` in `src/mux`), restricted to the
variants reachable from the embedded code. -/
inductive MuxError where
  | ClientReceivedSyn
  | ServerReceivedAck
  | TextMessage
  | InvalidFrame
  | SendDatagram
  | SendStreamToClient
  | TransportError
  deriving DecidableEq, Repr

/-- A stream handed to the user through `stream_tx` (the observable fields
of `MuxStream` at creation). -/
structure AcceptedStream where
  ourPort : Nat
  theirPort : Nat
  destHost : List Nat
  destPort : Nat
  deriving DecidableEq, Repr

/-- Mutable state of the demultiplex task: the port table, ghost lists of
discarded entries, datagrams delivered to the user, streams dispatched to
the accept queue, and whether the sink has been closed. -/
structure MuxState where
  streams : PortMap
  dead : List (Nat × PortEntry)
  datagrams : List DatagramFrame
  accepted : List AcceptedStream
  sinkClosed : Bool
  deriving DecidableEq, Repr

/-- Static configuration of a run: the role, the keepalive interval
(`None` disables keepalives) and liveness of the two user-side channels. -/
structure MuxConfig where
  role : Role
  keepalive : Option Nat
  streamTxAlive : Bool
  datagramTxAlive : Bool
  deriving DecidableEq, Repr

/-- A message pushed into the shared transport sink. -/
inductive OutMsg where
  | sframe (f : StreamFrame)
  | ping
  | pong (payload : List Nat)
  deriving DecidableEq, Repr

/-- Result of one processing step: normal continuation, an error aborting
the task, or a Rust panic. State and emitted messages stay observable in
every case. -/
inductive StepResult where
  | ok (st : MuxState) (out : List OutMsg)
  | err (st : MuxState) (out : List OutMsg) (e : MuxError)
  | panicked (st : MuxState) (out : List OutMsg)
  deriving DecidableEq, Repr

/-- The state component of a step result. -/
def stepState : StepResult → MuxState
  | .ok st _ => st
  | .err st _ _ => st
  | .panicked st _ => st

/-- The messages emitted by a step. -/
def stepOut : StepResult → List OutMsg
  | .ok _ out => out
  | .err _ out _ => out
  | .panicked _ out => out

/-- Modelled from the spec (`IntKey::next_available_key` lives in
`src/mux/mod.rs`, not under `src/`): the port allocator yields a key that
is not in the table and is nonzero; the random-probing strategy is
abstracted by taking one past the largest live key. -/
def next_available_key (m : PortMap) : Nat :=
  (m.map (fun p => p.1)).foldr Nat.max 0 + 1

/-- The `Syn` handshake parse embedded in `process_stream_frame`
(`src/mux/inner.rs` lines 238-241): `get_u8` for the host length,
`split_to` for the host, `get_u16` big-endian for the destination port.
Each of those `bytes::Buf` operations panics when the buffer is too short;
`none` models that panic. -/
def syn_payload_parse (data : List Nat) : Option (List Nat × Nat) :=
  match data with
  | [] => none
  | hostLen :: rest =>
      if hostLen ≤ rest.length then
        match rest.drop hostLen with
        | hi :: lo :: _ => some (rest.take hostLen, hi * 256 + lo)
        | _ => none
      else none

/-- A fresh port-table entry as `new_stream` creates it: empty queue, live
consumer, removed-flag clear. -/
def freshEntry : PortEntry := ⟨[], true, false⟩

/-- `MultiplexorInner::close_port` (`src/mux/inner.rs` lines 342-356): send
`Rst` unless `fin_sent`, remove the entry, deliver EOF to it and set its
removed-flag. Returns the new state and the emitted messages. -/
def close_port (st : MuxState) (ourPort theirPort : Nat) (finSent : Bool) :
    MuxState × List OutMsg :=
  let msgs := if finSent then [] else [OutMsg.sframe (new_rst ourPort theirPort)]
  match lookupPort st.streams ourPort with
  | some e =>
      ({ st with
          streams := removePort st.streams ourPort,
          dead := st.dead ++ [(ourPort, finalizeEntry e)] }, msgs)
  | none => (st, msgs)

/-- `MultiplexorInner::process_stream_frame` (`src/mux/inner.rs` lines
221-288). The destination port of the frame is `our_port`, the source is
`their_port`. -/
def process_stream_frame (cfg : MuxConfig) (st : MuxState) (f : StreamFrame) :
    StepResult :=
  match f.flag with
  | .syn =>
      if cfg.role = .client then .err st [] .ClientReceivedSyn
      else
        match syn_payload_parse f.data with
        | none => .panicked st []
        | some (destHost, destPort) =>
            let ourPort := next_available_key st.streams
            let st1 := { st with streams := insertPort st.streams ourPort freshEntry }
            if cfg.streamTxAlive then
              .ok { st1 with
                      accepted := st1.accepted ++ [⟨ourPort, f.sport, destHost, destPort⟩] }
                [OutMsg.sframe (new_ack ourPort f.sport)]
            else .err st1 [] .SendStreamToClient
  | .ack =>
      if cfg.role = .server then .err st [] .ServerReceivedAck
      else
        let st1 := { st with streams := insertPort st.streams f.dport freshEntry }
        if cfg.streamTxAlive then
          .ok { st1 with accepted := st1.accepted ++ [⟨f.dport, f.sport, [], 0⟩] } []
        else .err st1 [] .SendStreamToClient
  | .rst =>
      let r := close_port st f.dport f.sport true
      .ok r.1 r.2
  | .fin =>
      match lookupPort st.streams f.dport with
      | some _ =>
          .ok { st with
                  streams := updatePort st.streams f.dport (fun e => (sendToEntry e []).1) } []
      | none => .ok st []
  | .psh =>
      match lookupPort st.streams f.dport with
      | some e =>
          if e.receiverAlive then
            .ok { st with
                    streams := updatePort st.streams f.dport
                      (fun e2 => (sendToEntry e2 f.data).1) } []
          else .ok st [OutMsg.sframe (new_rst f.dport f.sport)]
      | none => .ok st [OutMsg.sframe (new_rst f.dport f.sport)]

/-- A transport message as the task receives it. `binaryInvalid` stands for
a binary message the frame codec rejects (decode modelled from the spec:
the codec in `src/mux/frame.rs` is not under `src/` and fails with
`InvalidFrame`). -/
inductive WsMsg where
  | binary (fr : Frame)
  | binaryInvalid
  | ping (payload : List Nat)
  | pong (payload : List Nat)
  | closeMsg
  | text
  deriving DecidableEq, Repr

/-- `MultiplexorInner::process_message` (`src/mux/inner.rs` lines 164-206).
The second component is `true` iff the message was `Close`. -/
def process_message (cfg : MuxConfig) (st : MuxState) : WsMsg → StepResult × Bool
  | .binary (.stream f) => (process_stream_frame cfg st f, false)
  | .binary (.datagram d) =>
      if cfg.datagramTxAlive then
        (.ok { st with datagrams := st.datagrams ++ [d] } [], false)
      else (.err st [] .SendDatagram, false)
  | .binaryInvalid => (.err st [] .InvalidFrame, false)
  | .ping p => (.ok st [OutMsg.pong p], false)
  | .pong _ => (.ok st [], false)
  | .closeMsg => (.ok st [], true)
  | .text => (.err st [] .TextMessage, false)

/-- One resolution of the `tokio::select!` in `task_inner`: a drop
notification, an inbound message, a transport error on the inbound stream,
or a keepalive tick. -/
inductive Event where
  | dropNotify (ourPort theirPort : Nat) (finSent : Bool)
  | inbound (m : WsMsg)
  | inboundErr
  | tick
  deriving DecidableEq, Repr

/-- How a run of the task loop ended. -/
inductive RunExit where
  | normal
  | errored (e : MuxError)
  | panicked
  deriving DecidableEq, Repr

/-- Final state, emitted messages and exit of a run. -/
structure RunResult where
  state : MuxState
  out : List OutMsg
  exit : RunExit
  deriving DecidableEq, Repr

/-- `MultiplexorInner::task_inner` (`src/mux/inner.rs` lines 116-158) run
over a finite schedule of select resolutions. An exhausted schedule is the
`else` branch of the select. A `tick` event with keepalive disabled is
skipped: `MaybeInterval::tick` never resolves then (lines 394-401). -/
def task_inner (cfg : MuxConfig) (st : MuxState) : List Event → RunResult
  | [] => ⟨st, [], .normal⟩
  | .dropNotify o t fs :: rest =>
      if o = 0 then ⟨st, [], .normal⟩
      else
        let c := close_port st o t fs
        let r := task_inner cfg c.1 rest
        ⟨r.state, c.2 ++ r.out, r.exit⟩
  | .inboundErr :: _ => ⟨st, [], .errored .TransportError⟩
  | .inbound m :: rest =>
      match process_message cfg st m with
      | (.ok st1 out, isClose) =>
          if isClose then ⟨st1, out, .normal⟩
          else
            let r := task_inner cfg st1 rest
            ⟨r.state, out ++ r.out, r.exit⟩
      | (.err st1 out e, _) => ⟨st1, out, .errored e⟩
      | (.panicked st1 out, _) => ⟨st1, out, .panicked⟩
  | .tick :: rest =>
      match cfg.keepalive with
      | some _ =>
          let r := task_inner cfg st rest
          ⟨r.state, OutMsg.ping :: r.out, r.exit⟩
      | none => task_inner cfg st rest

/-- `MultiplexorInner::shutdown` (`src/mux/inner.rs` lines 359-372): drain
the port table delivering EOF and setting every removed-flag, then close
the sink. -/
def shutdown (st : MuxState) : MuxState :=
  { st with
      streams := [],
      dead := st.dead ++ st.streams.map (fun p => (p.1, finalizeEntry p.2)),
      sinkClosed := true }

/-- `MultiplexorInner::task_wrapper` (`src/mux/inner.rs` lines 90-109):
run `task_inner`, then run `shutdown` whether it returned `Ok` or `Err`.
A panic unwinds past the shutdown call. -/
def task_wrapper (cfg : MuxConfig) (st : MuxState) (events : List Event) :
    RunResult :=
  let r := task_inner cfg st events
  match r.exit with
  | .panicked => r
  | _ => ⟨shutdown r.state, r.out, r.exit⟩

/-- Outcome of the WebSocket upgrade route: accepted, or rejected (every
rejection in `ws_filter` and the fall-through routes of `server_main`
resolves to a 404 response). -/
inductive UpgradeOutcome where
  | accepted
  | rejected404
  deriving DecidableEq, Repr

/-- `ws_filter` (`src/server/websocket.rs` lines 41-85) restricted to an
upgrade request on `/ws`: require header `sec-websocket-protocol` equal to
the protocol version, then check the optional `x-penguin-psk` header
against the configured PSK. -/
def ws_filter (protocolVersion : String) (protoHeader pskHeader configPsk : Option String) :
    UpgradeOutcome :=
  if protoHeader = some protocolVersion then
    match pskHeader, configPsk with
    | some psk, some k => if psk = k then .accepted else .rejected404
    | none, some _ => .rejected404
    | _, none => .accepted
  else .rejected404

/-- A client-role configuration with keepalive disabled and both user
channels alive, used for concrete evaluations. -/
def sampleClientCfg : MuxConfig := ⟨.client, none, true, true⟩

/-- A server-role configuration with keepalive disabled and both user
channels alive, used for concrete evaluations. -/
def sampleServerCfg : MuxConfig := ⟨.server, none, true, true⟩

/-- The initial state of a fresh multiplexor: empty port table. -/
def emptyState : MuxState := ⟨[], [], [], [], false⟩

/-- A port entry with one queued payload and a live consumer. -/
def sampleEntry : PortEntry := ⟨[[1]], true, false⟩

/-- A state whose port table holds `sampleEntry` at port 3. -/
def oneState : MuxState := ⟨[(3, sampleEntry)], [], [], [], false⟩

/-! ### Helper lemmas about the port table -/

lemma lookupPort_removePort_self (m : PortMap) (k : Nat) :
    lookupPort (removePort m k) k = none := by
  induction m with
  | nil => rfl
  | cons p rest ih =>
      rcases p with ⟨k0, e0⟩
      by_cases h : k0 = k
      · simpa [removePort, h] using ih
      · simpa [removePort, lookupPort, h] using ih

lemma mem_removePort {p : Nat × PortEntry} {m : PortMap} {k : Nat}
    (h : p ∈ removePort m k) : p ∈ m :=
  List.mem_of_mem_filter h

lemma mem_insertPort {p : Nat × PortEntry} {m : PortMap} {k : Nat} {v : PortEntry}
    (h : p ∈ insertPort m k v) : p = (k, v) ∨ p ∈ m := by
  rw [insertPort, List.mem_cons] at h
  rcases h with h | h
  · exact Or.inl h
  · exact Or.inr (mem_removePort h)

lemma mem_updatePort {p : Nat × PortEntry} {m : PortMap} {k : Nat}
    {fn : PortEntry → PortEntry} (h : p ∈ updatePort m k fn) :
    ∃ q ∈ m, p.1 = q.1 := by
  induction m with
  | nil => simp [updatePort] at h
  | cons q0 rest ih =>
      rcases q0 with ⟨k0, e0⟩
      by_cases hk : k0 = k
      · rw [updatePort, if_pos hk, List.mem_cons] at h
        rcases h with h | h
        · exact ⟨(k0, e0), List.mem_cons_self _ _, by simp [h]⟩
        · exact ⟨p, List.mem_cons_of_mem _ h, rfl⟩
      · rw [updatePort, if_neg hk, List.mem_cons] at h
        rcases h with h | h
        · exact ⟨(k0, e0), List.mem_cons_self _ _, by simp [h]⟩
        · rcases ih h with ⟨q, hq, hpq⟩
          exact ⟨q, List.mem_cons_of_mem _ hq, hpq⟩

lemma lookupPort_updatePort_self {m : PortMap} {k : Nat} {e : PortEntry}
    (fn : PortEntry → PortEntry) (h : lookupPort m k = some e) :
    lookupPort (updatePort m k fn) k = some (fn e) := by
  induction m with
  | nil => simp [lookupPort] at h
  | cons p rest ih =>
      rcases p with ⟨k0, e0⟩
      by_cases hk : k0 = k
      · rw [lookupPort, if_pos hk] at h
        rw [updatePort, if_pos hk, lookupPort, if_pos hk]
        simp only [Option.some.injEq] at h
        rw [h]
      · rw [lookupPort, if_neg hk] at h
        rw [updatePort, if_neg hk, lookupPort, if_neg hk]
        exact ih h

lemma next_available_key_ne_zero (m : PortMap) : next_available_key m ≠ 0 :=
  Nat.succ_ne_zero _

/-! ### Helper lemmas about `close_port` -/

lemma close_port_out (st : MuxState) (o t : Nat) (fs : Bool) :
    (close_port st o t fs).2 =
      if fs then [] else [OutMsg.sframe (new_rst o t)] := by
  unfold close_port
  rcases h : lookupPort st.streams o with _ | e <;> simp [h]

lemma close_port_state_none {st : MuxState} {o : Nat} (t : Nat) (fs : Bool)
    (h : lookupPort st.streams o = none) : (close_port st o t fs).1 = st := by
  unfold close_port
  simp [h]

lemma close_port_state_some {st : MuxState} {o : Nat} {e : PortEntry} (t : Nat)
    (fs : Bool) (h : lookupPort st.streams o = some e) :
    (close_port st o t fs).1 =
      { st with
          streams := removePort st.streams o,
          dead := st.dead ++ [(o, finalizeEntry e)] } := by
  unfold close_port
  simp [h]

lemma close_port_lookup (st : MuxState) (o t : Nat) (fs : Bool) :
    lookupPort (close_port st o t fs).1.streams o = none := by
  rcases h : lookupPort st.streams o with _ | e
  · rw [close_port_state_none t fs h, h]
  · rw [close_port_state_some t fs h]
    exact lookupPort_removePort_self st.streams o

/-! ### What the processing functions emit -/

lemma stepOut_process_stream_frame {cfg : MuxConfig} {st : MuxState}
    {f : StreamFrame} {m : OutMsg}
    (h : m ∈ stepOut (process_stream_frame cfg st f)) :
    ∃ g, m = OutMsg.sframe g ∧ g.flag ≠ StreamFlag.syn ∧
      (g.flag = StreamFlag.ack → cfg.role = Role.server) := by
  rcases f with ⟨sp, dp, flag, data⟩
  cases flag
  case syn =>
    by_cases hr : cfg.role = Role.client
    · simp [process_stream_frame, hr, stepOut] at h
    · rcases hp : syn_payload_parse data with _ | ⟨host, port⟩
      · simp [process_stream_frame, hr, hp, stepOut] at h
      · by_cases hs : cfg.streamTxAlive
        · simp [process_stream_frame, hr, hp, hs, stepOut, new_ack] at h
          subst h
          refine ⟨_, rfl, by simp, fun _ => ?_⟩
          cases hcr : cfg.role
          · exact absurd hcr hr
          · rfl
        · simp [process_stream_frame, hr, hp, hs, stepOut] at h
  case ack =>
    by_cases hr : cfg.role = Role.server
    · simp [process_stream_frame, hr, stepOut] at h
    · by_cases hs : cfg.streamTxAlive <;>
        simp [process_stream_frame, hr, hs, stepOut] at h
  case rst =>
    simp [process_stream_frame, stepOut, close_port_out] at h
  case fin =>
    rcases hl : lookupPort st.streams dp with _ | e <;>
      simp [process_stream_frame, hl, stepOut] at h
  case psh =>
    rcases hl : lookupPort st.streams dp with _ | e
    · simp [process_stream_frame, hl, stepOut, new_rst] at h
      subst h
      exact ⟨_, rfl, by simp, by simp⟩
    · by_cases ha : e.receiverAlive
      · simp [process_stream_frame, hl, ha, stepOut] at h
      · simp [process_stream_frame, hl, ha, stepOut, new_rst] at h
        subst h
        exact ⟨_, rfl, by simp, by simp⟩

lemma stepOut_process_message {cfg : MuxConfig} {st : MuxState} {msg : WsMsg}
    {m : OutMsg} (h : m ∈ stepOut (process_message cfg st msg).1) :
    (∃ g, m = OutMsg.sframe g ∧ g.flag ≠ StreamFlag.syn ∧
      (g.flag = StreamFlag.ack → cfg.role = Role.server)) ∨
    ∃ p, m = OutMsg.pong p := by
  cases msg with
  | binary fr =>
      cases fr with
      | stream f => exact Or.inl (stepOut_process_stream_frame h)
      | datagram d =>
          by_cases hd : cfg.datagramTxAlive <;>
            simp [process_message, hd, stepOut] at h
  | binaryInvalid => simp [process_message, stepOut] at h
  | ping p =>
      simp [process_message, stepOut] at h
      exact Or.inr ⟨p, h⟩
  | pong p => simp [process_message, stepOut] at h
  | closeMsg => simp [process_message, stepOut] at h
  | text => simp [process_message, stepOut] at h

lemma out_task_inner {cfg : MuxConfig} {st : MuxState} {events : List Event}
    {m : OutMsg} (h : m ∈ (task_inner cfg st events).out) :
    (∃ g, m = OutMsg.sframe g ∧ g.flag ≠ StreamFlag.syn ∧
      (g.flag = StreamFlag.ack → cfg.role = Role.server)) ∨
    (∃ p, m = OutMsg.pong p) ∨
    (m = OutMsg.ping ∧ cfg.keepalive ≠ none) := by
  induction events generalizing st with
  | nil => simp [task_inner] at h
  | cons ev rest ih =>
      cases ev with
      | dropNotify o t fs =>
          by_cases ho : o = 0
          · simp [task_inner, ho] at h
          · simp only [task_inner, if_neg ho] at h
            rcases List.mem_append.mp h with h | h
            · rw [close_port_out] at h
              cases fs
              · simp at h
                subst h
                exact Or.inl ⟨_, rfl, by simp [new_rst], by simp [new_rst]⟩
              · simp at h
            · exact ih h
      | inbound msg =>
          rcases hq : process_message cfg st msg with ⟨res, isClose⟩
          have hres : ∀ m2 : OutMsg, m2 ∈ stepOut res →
              (∃ g, m2 = OutMsg.sframe g ∧ g.flag ≠ StreamFlag.syn ∧
                (g.flag = StreamFlag.ack → cfg.role = Role.server)) ∨
              ∃ p, m2 = OutMsg.pong p := by
            intro m2 h2
            have h3 : m2 ∈ stepOut (process_message cfg st msg).1 := by
              rw [hq]
              exact h2
            exact stepOut_process_message h3
          rcases res with ⟨st1, out⟩ | ⟨st1, out, e⟩ | ⟨st1, out⟩
          · cases isClose
            · simp [task_inner, hq] at h
              rcases h with h | h
              · rcases hres m (by simpa [stepOut] using h) with h1 | h1
                · exact Or.inl h1
                · exact Or.inr (Or.inl h1)
              · exact ih h
            · simp [task_inner, hq] at h
              rcases hres m (by simpa [stepOut] using h) with h1 | h1
              · exact Or.inl h1
              · exact Or.inr (Or.inl h1)
          · simp [task_inner, hq] at h
            rcases hres m (by simpa [stepOut] using h) with h1 | h1
            · exact Or.inl h1
            · exact Or.inr (Or.inl h1)
          · simp [task_inner, hq] at h
            rcases hres m (by simpa [stepOut] using h) with h1 | h1
            · exact Or.inl h1
            · exact Or.inr (Or.inl h1)
      | inboundErr => simp [task_inner] at h
      | tick =>
          rcases hk : cfg.keepalive with _ | n
          · rw [task_inner, hk] at h
            rcases ih h with h1 | h1 | h1
            · exact Or.inl h1
            · exact Or.inr (Or.inl h1)
            · exact absurd hk h1.2
          · rw [task_inner, hk] at h
            rcases List.mem_cons.mp h with h | h
            · exact Or.inr (Or.inr ⟨h, by simp⟩)
            · rcases ih h with h1 | h1 | h1
              · exact Or.inl h1
              · exact Or.inr (Or.inl h1)
              · exact Or.inr (Or.inr ⟨h1.1, by simp⟩)

lemma task_wrapper_out (cfg : MuxConfig) (st : MuxState) (events : List Event) :
    (task_wrapper cfg st events).out = (task_inner cfg st events).out := by
  rcases hx : (task_inner cfg st events).exit with _ | e | _ <;>
    simp [task_wrapper, hx]

lemma task_wrapper_state (cfg : MuxConfig) (st : MuxState) (events : List Event)
    (h : (task_inner cfg st events).exit ≠ RunExit.panicked) :
    (task_wrapper cfg st events).state = shutdown (task_inner cfg st events).state := by
  rcases hx : (task_inner cfg st events).exit with _ | e | _ <;>
    simp [task_wrapper, hx] at h ⊢

/-! ### Claims -/

/-- C1: a client-role multiplexor that receives a `Syn` frame fails with
`ClientReceivedSyn` and a server-role multiplexor that receives an `Ack`
frame fails with `ServerReceivedAck`; either error terminates the task loop
with that protocol error; moreover the demultiplex task never emits a `Syn`
frame and emits `Ack` frames only in the server role. -/
theorem c1_role_violation_errors (cfg : MuxConfig) (st : MuxState) (f : StreamFrame) :
    (cfg.role = Role.client → f.flag = StreamFlag.syn →
       process_stream_frame cfg st f = .err st [] .ClientReceivedSyn) ∧
    (cfg.role = Role.server → f.flag = StreamFlag.ack →
       process_stream_frame cfg st f = .err st [] .ServerReceivedAck) ∧
    (∀ rest : List Event, cfg.role = Role.client → f.flag = StreamFlag.syn →
       (task_inner cfg st (Event.inbound (WsMsg.binary (Frame.stream f)) :: rest)).exit =
         RunExit.errored .ClientReceivedSyn) ∧
    (∀ rest : List Event, cfg.role = Role.server → f.flag = StreamFlag.ack →
       (task_inner cfg st (Event.inbound (WsMsg.binary (Frame.stream f)) :: rest)).exit =
         RunExit.errored .ServerReceivedAck) ∧
    (∀ m ∈ stepOut (process_stream_frame cfg st f), ∀ g, m = OutMsg.sframe g →
       g.flag ≠ StreamFlag.syn ∧ (g.flag = StreamFlag.ack → cfg.role = Role.server)) := by
  have hA : cfg.role = Role.client → f.flag = StreamFlag.syn →
      process_stream_frame cfg st f = .err st [] .ClientReceivedSyn := by
    intro hr hf
    simp [process_stream_frame, hf, hr]
  have hB : cfg.role = Role.server → f.flag = StreamFlag.ack →
      process_stream_frame cfg st f = .err st [] .ServerReceivedAck := by
    intro hr hf
    simp [process_stream_frame, hf, hr]
  refine ⟨hA, hB, ?_, ?_, ?_⟩
  · intro rest hr hf
    simp [task_inner, process_message, hA hr hf]
  · intro rest hr hf
    simp [task_inner, process_message, hB hr hf]
  · intro m hm g hg
    subst hg
    rcases stepOut_process_stream_frame hm with ⟨g2, hg2, h2, h3⟩
    obtain rfl : g = g2 := by injection hg2
    exact ⟨h2, h3⟩

/-- Witness for C1: a concrete client-role multiplexor rejects a concrete
`Syn` frame with `ClientReceivedSyn`. -/
theorem c1_role_violation_errors_witness :
    sampleClientCfg.role = Role.client ∧
    (⟨1, 2, StreamFlag.syn, []⟩ : StreamFrame).flag = StreamFlag.syn ∧
    process_stream_frame sampleClientCfg emptyState ⟨1, 2, StreamFlag.syn, []⟩ =
      .err emptyState [] .ClientReceivedSyn :=
  ⟨rfl, rfl,
    (c1_role_violation_errors sampleClientCfg emptyState ⟨1, 2, StreamFlag.syn, []⟩).1 rfl rfl⟩

/-- C2 counterexample: the claim says no `Ack` frame is ever sent by the
server-role endpoint, but a server-role multiplexor processing a valid
`Syn` emits an `Ack` frame. -/
theorem c2_server_emits_ack_counterexample :
    OutMsg.sframe ⟨1, 5, StreamFlag.ack, []⟩ ∈
      stepOut (process_stream_frame sampleServerCfg emptyState
        ⟨5, 0, StreamFlag.syn, [0, 0, 80]⟩) := by
  decide

/-- C2 amended: only the client-role endpoint may emit `Syn` and only the
server-role endpoint may emit `Ack`: over every run of the task, no emitted
stream frame carries `Syn`, and every emitted `Ack` comes from the server
role. -/
theorem c2_emission_discipline (cfg : MuxConfig) (st : MuxState)
    (events : List Event) (g : StreamFrame)
    (h : OutMsg.sframe g ∈ (task_wrapper cfg st events).out) :
    g.flag ≠ StreamFlag.syn ∧ (g.flag = StreamFlag.ack → cfg.role = Role.server) := by
  rw [task_wrapper_out] at h
  rcases out_task_inner h with h1 | h1 | h1
  · rcases h1 with ⟨g2, hg, h2, h3⟩
    obtain rfl : g = g2 := by injection hg
    exact ⟨h2, h3⟩
  · rcases h1 with ⟨p, hp⟩
    simp at hp
  · rcases h1 with ⟨hp, _⟩
    simp at hp

/-- Witness for C2 (amended): the `Ack` emitted by a concrete server-role
run satisfies the emission discipline. -/
theorem c2_emission_discipline_witness :
    (OutMsg.sframe ⟨1, 5, StreamFlag.ack, []⟩ ∈
        (task_wrapper sampleServerCfg emptyState
          [Event.inbound (WsMsg.binary (Frame.stream ⟨5, 0, StreamFlag.syn, [0, 0, 80]⟩))]).out) ∧
    (⟨1, 5, StreamFlag.ack, []⟩ : StreamFrame).flag ≠ StreamFlag.syn ∧
    ((⟨1, 5, StreamFlag.ack, []⟩ : StreamFrame).flag = StreamFlag.ack →
       sampleServerCfg.role = Role.server) :=
  ⟨by decide,
    c2_emission_discipline sampleServerCfg emptyState
      [Event.inbound (WsMsg.binary (Frame.stream ⟨5, 0, StreamFlag.syn, [0, 0, 80]⟩))]
      ⟨1, 5, StreamFlag.ack, []⟩ (by decide)⟩

/-- C3 counterexample: starting from a state whose port table has only
nonzero keys (it is empty), the client-role `Ack` handler, fed a crafted
`Ack` whose destination port is 0, inserts key 0 into the port table. -/
theorem c3_zero_port_counterexample :
    lookupPort (stepState (process_stream_frame sampleClientCfg emptyState
        ⟨7, 0, StreamFlag.ack, []⟩)).streams 0 = some freshEntry := by
  decide

/-- C3 amended: every key of the port table is nonzero after processing any
stream frame, provided it was before and, for an `Ack` frame, the frame
carries a nonzero destination port (the server `Syn` path preserves the
invariant unconditionally through the allocator). -/
theorem c3_nonzero_keys_preserved (cfg : MuxConfig) (st : MuxState)
    (f : StreamFrame) (h0 : ∀ p ∈ st.streams, p.1 ≠ 0)
    (hack : f.flag = StreamFlag.ack → f.dport ≠ 0) :
    ∀ p ∈ (stepState (process_stream_frame cfg st f)).streams, p.1 ≠ 0 := by
  intro p hp
  rcases f with ⟨sp, dp, flag, data⟩
  cases flag
  case syn =>
    by_cases hr : cfg.role = Role.client
    · simp [process_stream_frame, hr, stepState] at hp
      exact h0 p hp
    · rcases hq : syn_payload_parse data with _ | ⟨host, port⟩
      · simp [process_stream_frame, hr, hq, stepState] at hp
        exact h0 p hp
      · by_cases hs : cfg.streamTxAlive
        · simp [process_stream_frame, hr, hq, hs, stepState] at hp
          rcases mem_insertPort hp with h | h
          · rw [h]
            exact next_available_key_ne_zero st.streams
          · exact h0 p h
        · simp [process_stream_frame, hr, hq, hs, stepState] at hp
          rcases mem_insertPort hp with h | h
          · rw [h]
            exact next_available_key_ne_zero st.streams
          · exact h0 p h
  case ack =>
    by_cases hr : cfg.role = Role.server
    · simp [process_stream_frame, hr, stepState] at hp
      exact h0 p hp
    · have hdp : dp ≠ 0 := hack rfl
      by_cases hs : cfg.streamTxAlive
      · simp [process_stream_frame, hr, hs, stepState] at hp
        rcases mem_insertPort hp with h | h
        · rw [h]
          exact hdp
        · exact h0 p h
      · simp [process_stream_frame, hr, hs, stepState] at hp
        rcases mem_insertPort hp with h | h
        · rw [h]
          exact hdp
        · exact h0 p h
  case rst =>
    rcases hl : lookupPort st.streams dp with _ | e
    · simp [process_stream_frame, stepState, close_port_state_none sp true hl] at hp
      exact h0 p hp
    · simp [process_stream_frame, stepState, close_port_state_some sp true hl] at hp
      exact h0 p (mem_removePort hp)
  case fin =>
    rcases hl : lookupPort st.streams dp with _ | e
    · simp [process_stream_frame, hl, stepState] at hp
      exact h0 p hp
    · simp [process_stream_frame, hl, stepState] at hp
      rcases mem_updatePort hp with ⟨q, hq, hpq⟩
      rw [hpq]
      exact h0 q hq
  case psh =>
    rcases hl : lookupPort st.streams dp with _ | e
    · simp [process_stream_frame, hl, stepState] at hp
      exact h0 p hp
    · by_cases ha : e.receiverAlive
      · simp [process_stream_frame, hl, ha, stepState] at hp
        rcases mem_updatePort hp with ⟨q, hq, hpq⟩
        rw [hpq]
        exact h0 q hq
      · simp [process_stream_frame, hl, ha, stepState] at hp
        exact h0 p hp

/-- Witness for C3 (amended): a concrete client-role multiplexor processing
an `Ack` with nonzero destination port keeps all port-table keys nonzero. -/
theorem c3_nonzero_keys_preserved_witness :
    (∀ p ∈ emptyState.streams, p.1 ≠ 0) ∧
    ((⟨9, 4, StreamFlag.ack, []⟩ : StreamFrame).flag = StreamFlag.ack → (4 : Nat) ≠ 0) ∧
    ∀ p ∈ (stepState (process_stream_frame sampleClientCfg emptyState
        ⟨9, 4, StreamFlag.ack, []⟩)).streams, p.1 ≠ 0 :=
  ⟨by decide, by decide,
    c3_nonzero_keys_preserved sampleClientCfg emptyState ⟨9, 4, StreamFlag.ack, []⟩
      (by decide) (by decide)⟩

/-- C4: processing an inbound `Rst` emits nothing, removes the port from
the table, and leaves the removed entry with EOF delivered (when its
consumer is alive) and its removed-flag set; in general `close_port` emits
a `Rst` frame iff `fin_sent` is false. -/
theorem c4_rst_close_no_reply (cfg : MuxConfig) (st : MuxState)
    (f : StreamFrame) (hf : f.flag = StreamFlag.rst) :
    stepOut (process_stream_frame cfg st f) = [] ∧
    lookupPort (stepState (process_stream_frame cfg st f)).streams f.dport = none ∧
    (∀ e, lookupPort st.streams f.dport = some e →
       (f.dport, finalizeEntry e) ∈ (stepState (process_stream_frame cfg st f)).dead ∧
       (finalizeEntry e).removed = true ∧
       (e.receiverAlive = true → (finalizeEntry e).queue = e.queue ++ [[]])) ∧
    (∀ o t : Nat, ∀ fs : Bool, (close_port st o t fs).2 =
       if fs then [] else [OutMsg.sframe (new_rst o t)]) := by
  rcases f with ⟨sp, dp, flag, data⟩
  cases flag
  case syn => simp at hf
  case ack => simp at hf
  case fin => simp at hf
  case psh => simp at hf
  case rst =>
    refine ⟨?_, ?_, ?_, ?_⟩
    · simp [process_stream_frame, stepOut, close_port_out]
    · simp only [process_stream_frame, stepState]
      exact close_port_lookup st dp sp true
    · intro e he
      refine ⟨?_, rfl, ?_⟩
      · simp [process_stream_frame, stepState, close_port_state_some sp true he]
      · intro ha
        simp [finalizeEntry, sendToEntry, ha]
    · intro o t fs
      exact close_port_out st o t fs

/-- Witness for C4: a concrete `Rst` for a live port emits nothing. -/
theorem c4_rst_close_no_reply_witness :
    (⟨8, 3, StreamFlag.rst, []⟩ : StreamFrame).flag = StreamFlag.rst ∧
    stepOut (process_stream_frame sampleClientCfg oneState
      ⟨8, 3, StreamFlag.rst, []⟩) = [] :=
  ⟨rfl,
    (c4_rst_close_no_reply sampleClientCfg oneState ⟨8, 3, StreamFlag.rst, []⟩ rfl).1⟩

/-- C5: an inbound `Psh` whose destination port is live with an alive
consumer appends the payload to that receive queue and emits nothing;
otherwise (port absent, or consumer gone) it emits
`Rst(our_port, their_port)` and leaves the state unchanged. -/
theorem c5_psh_forward_or_rst (cfg : MuxConfig) (st : MuxState)
    (f : StreamFrame) (hf : f.flag = StreamFlag.psh) :
    (∀ e, lookupPort st.streams f.dport = some e → e.receiverAlive = true →
       process_stream_frame cfg st f =
         .ok { st with streams := (updatePort st.streams f.dport
                  (fun e2 => (sendToEntry e2 f.data).1)) } [] ∧
       lookupPort (stepState (process_stream_frame cfg st f)).streams f.dport =
         some { e with queue := e.queue ++ [f.data] }) ∧
    (∀ e, lookupPort st.streams f.dport = some e → e.receiverAlive = false →
       process_stream_frame cfg st f =
         .ok st [OutMsg.sframe (new_rst f.dport f.sport)]) ∧
    (lookupPort st.streams f.dport = none →
       process_stream_frame cfg st f =
         .ok st [OutMsg.sframe (new_rst f.dport f.sport)]) := by
  rcases f with ⟨sp, dp, flag, data⟩
  cases flag
  case syn => simp at hf
  case ack => simp at hf
  case rst => simp at hf
  case fin => simp at hf
  case psh =>
    refine ⟨?_, ?_, ?_⟩
    · intro e he ha
      have hupd := lookupPort_updatePort_self (fun e2 => (sendToEntry e2 data).1) he
      refine ⟨by simp [process_stream_frame, he, ha], ?_⟩
      simp only [process_stream_frame, he, ha, if_true, stepState]
      rw [hupd]
      simp [sendToEntry, ha]
    · intro e he ha
      simp [process_stream_frame, he, ha]
    · intro he
      simp [process_stream_frame, he]

/-- Witness for C5: a concrete `Psh` for a live port with a live consumer
is forwarded onto the queue. -/
theorem c5_psh_forward_or_rst_witness :
    (⟨8, 3, StreamFlag.psh, [7]⟩ : StreamFrame).flag = StreamFlag.psh ∧
    lookupPort oneState.streams 3 = some sampleEntry ∧
    sampleEntry.receiverAlive = true ∧
    process_stream_frame sampleClientCfg oneState ⟨8, 3, StreamFlag.psh, [7]⟩ =
      .ok { oneState with streams := (updatePort oneState.streams 3
               (fun e2 => (sendToEntry e2 [7]).1)) } [] :=
  ⟨rfl, by decide, rfl,
    ((c5_psh_forward_or_rst sampleClientCfg oneState ⟨8, 3, StreamFlag.psh, [7]⟩ rfl).1
        sampleEntry (by decide) rfl).1⟩

/-- C6: an inbound `Fin` for a live port appends exactly one empty payload
(EOF) to its receive queue (when the consumer is alive), emits nothing,
keeps the entry in the table and leaves its removed-flag unchanged; a `Fin`
for an absent port is a no-op with no error. -/
theorem c6_fin_eof_keep_entry (cfg : MuxConfig) (st : MuxState)
    (f : StreamFrame) (hf : f.flag = StreamFlag.fin) :
    stepOut (process_stream_frame cfg st f) = [] ∧
    (∀ e, lookupPort st.streams f.dport = some e →
       process_stream_frame cfg st f =
         .ok { st with streams := (updatePort st.streams f.dport
                  (fun e2 => (sendToEntry e2 []).1)) } [] ∧
       lookupPort (stepState (process_stream_frame cfg st f)).streams f.dport =
         some ((sendToEntry e []).1) ∧
       ((sendToEntry e []).1).removed = e.removed ∧
       (e.receiverAlive = true → ((sendToEntry e []).1).queue = e.queue ++ [[]])) ∧
    (lookupPort st.streams f.dport = none →
       process_stream_frame cfg st f = .ok st []) := by
  rcases f with ⟨sp, dp, flag, data⟩
  cases flag
  case syn => simp at hf
  case ack => simp at hf
  case rst => simp at hf
  case psh => simp at hf
  case fin =>
    refine ⟨?_, ?_, ?_⟩
    · rcases hl : lookupPort st.streams dp with _ | e <;>
        simp [process_stream_frame, hl, stepOut]
    · intro e he
      have hupd := lookupPort_updatePort_self (fun e2 => (sendToEntry e2 []).1) he
      refine ⟨by simp [process_stream_frame, he], ?_, ?_, ?_⟩
      · simp only [process_stream_frame, he, stepState]
        rw [hupd]
      · by_cases ha : e.receiverAlive <;> simp [sendToEntry, ha]
      · intro ha
        simp [sendToEntry, ha]
    · intro he
      simp [process_stream_frame, he]

/-- Witness for C6: a concrete `Fin` for a live port delivers one EOF and
keeps the entry. -/
theorem c6_fin_eof_keep_entry_witness :
    (⟨8, 3, StreamFlag.fin, []⟩ : StreamFrame).flag = StreamFlag.fin ∧
    stepOut (process_stream_frame sampleClientCfg oneState
      ⟨8, 3, StreamFlag.fin, []⟩) = [] :=
  ⟨rfl,
    (c6_fin_eof_keep_entry sampleClientCfg oneState ⟨8, 3, StreamFlag.fin, []⟩ rfl).1⟩

/-- C7: whenever the demultiplex task exits normally or with an error (its
loop can end on the `(0, _, _)` drop sentinel, a peer `Close`, an exhausted
select, or any error), `shutdown` runs: afterwards the port table is empty,
the sink is closed, and every entry that was live at exit has been moved to
the discarded set with EOF enqueued (when its consumer was alive) and its
removed-flag set. -/
theorem c7_shutdown_on_exit (cfg : MuxConfig) (st : MuxState)
    (events : List Event)
    (h : (task_inner cfg st events).exit ≠ RunExit.panicked) :
    (task_wrapper cfg st events).state.streams = [] ∧
    (task_wrapper cfg st events).state.sinkClosed = true ∧
    ∀ p ∈ (task_inner cfg st events).state.streams,
      (p.1, finalizeEntry p.2) ∈ (task_wrapper cfg st events).state.dead ∧
      (finalizeEntry p.2).removed = true ∧
      (p.2.receiverAlive = true → (finalizeEntry p.2).queue = p.2.queue ++ [[]]) := by
  rw [task_wrapper_state cfg st events h]
  refine ⟨rfl, rfl, ?_⟩
  intro p hp
  refine ⟨?_, rfl, ?_⟩
  · simp only [shutdown, List.mem_append]
    exact Or.inr (List.mem_map.mpr ⟨p, hp, rfl⟩)
  · intro ha
    simp [finalizeEntry, sendToEntry, ha]

/-- Witness for C7: a run that exits because the select is exhausted, with
one live port, ends with an empty table. -/
theorem c7_shutdown_on_exit_witness :
    (task_inner sampleClientCfg oneState []).exit ≠ RunExit.panicked ∧
    (task_wrapper sampleClientCfg oneState []).state.streams = [] :=
  ⟨by decide, (c7_shutdown_on_exit sampleClientCfg oneState [] (by decide)).1⟩

/-- C8: with `keepalive_interval = None` the task never emits a
transport-level `Ping`, over every run of the loop. -/
theorem c8_no_ping_without_keepalive (cfg : MuxConfig) (st : MuxState)
    (events : List Event) (h : cfg.keepalive = none) :
    OutMsg.ping ∉ (task_wrapper cfg st events).out := by
  intro hping
  rw [task_wrapper_out] at hping
  rcases out_task_inner hping with h1 | h1 | h1
  · rcases h1 with ⟨g, hg, _, _⟩
    simp at hg
  · rcases h1 with ⟨p, hp⟩
    simp at hp
  · exact h1.2 h

/-- Witness for C8: a concrete keepalive-disabled run that skips a tick and
answers a transport ping emits no `Ping`. -/
theorem c8_no_ping_without_keepalive_witness :
    sampleClientCfg.keepalive = none ∧
    OutMsg.ping ∉ (task_wrapper sampleClientCfg emptyState
      [Event.tick, Event.inbound (WsMsg.ping [1])]).out :=
  ⟨rfl,
    c8_no_ping_without_keepalive sampleClientCfg emptyState
      [Event.tick, Event.inbound (WsMsg.ping [1])] rfl⟩

/-- C9: the upgrade is accepted iff `sec-websocket-protocol` equals the
protocol version and, when a PSK is configured, `x-penguin-psk` equals it;
the only other outcome is a 404 rejection, and with no configured PSK any
(or no) `x-penguin-psk` value is accepted. -/
theorem c9_ws_upgrade_iff (pv : String) (proto psk cfg : Option String) :
    ws_filter pv proto psk cfg = UpgradeOutcome.accepted ↔
      (proto = some pv ∧ ∀ k, cfg = some k → psk = some k) := by
  unfold ws_filter
  by_cases hp : proto = some pv
  · rcases psk with _ | p <;> rcases cfg with _ | k <;> simp [hp]
  · simp [hp]

/-- Witness for C9: a request carrying the right protocol header and the
configured PSK is accepted. -/
theorem c9_ws_upgrade_iff_witness :
    ws_filter "v1" (some "v1") (some "key") (some "key") =
      UpgradeOutcome.accepted :=
  (c9_ws_upgrade_iff "v1" (some "v1") (some "key") (some "key")).mpr
    ⟨rfl, fun _ hk => hk ▸ rfl⟩

/-- C10: the `Syn` handshake parse is not total: on an empty payload the
`get_u8` call panics (modelled by `none`), and a server-role multiplexor
processing such a `Syn` panics instead of returning a protocol error. -/
theorem c10_syn_parse_panics_on_empty :
    syn_payload_parse [] = none ∧
    process_stream_frame sampleServerCfg emptyState ⟨1, 0, StreamFlag.syn, []⟩ =
      .panicked emptyState [] :=
  ⟨rfl, rfl⟩
